import Mathlib

/-!
Verification of the content classification and deduplication pipeline of the
pinterest-scraper repository.

Python strings are modelled as `List Char` (`PyStr`); `str.lower()`/`str.strip()`
are modelled for the ASCII range; Python float arithmetic on aspect ratios is
modelled with exact rationals (`ℚ`); Python `in` (substring) is modelled by
`List.IsInfix`.  Machine sources:
  * `src/enhanced_scraper.py` — `EnhancedPinterestScraper.is_social_media_compatible`,
    `convert_to_original_url`, `extract_image_data`, `scrape_category`.
  * `src/tiktok-scraper/hook_analyzer.py` — `HookAnalyzer.categorize_hook`.
  * `src/tiktok-scraper/data_extractor.py` — `DataExtractor.is_slideshow_post`,
    `extract_hook`.
-/

/-- Python `str` values are modelled as lists of characters. -/
abbrev PyStr := List Char

/-- ASCII model of Python `str.lower()` (only A–Z are mapped; the inputs of
interest are ASCII). -/
def asciiLower (s : PyStr) : PyStr :=
  s.map fun c => if 'A' ≤ c ∧ c ≤ 'Z' then Char.ofNat (c.toNat + 32) else c

/-- Characters removed by Python `str.strip()` (ASCII whitespace). -/
def pyIsSpace (c : Char) : Bool :=
  c = ' ' ∨ c = '\t' ∨ c = '\n' ∨ c = '\r' ∨ c = Char.ofNat 11 ∨ c = Char.ofNat 12

/-- Model of Python `str.strip()`: drop whitespace from both ends. -/
def pstrip (s : PyStr) : PyStr :=
  ((s.dropWhile pyIsSpace).reverse.dropWhile pyIsSpace).reverse

/-- First index at which `sub` occurs in `s` (`str.find` without the -1 encoding). -/
def pyFindAux (sub : PyStr) : PyStr → Option ℕ
  | [] => if sub <+: ([] : PyStr) then some 0 else none
  | c :: rest =>
    if sub <+: (c :: rest) then some 0
    else (pyFindAux sub rest).map (· + 1)

/-- Model of Python `str.find`: index of the first occurrence of `sub`, or -1. -/
def pyFind (s sub : PyStr) : Int :=
  match pyFindAux sub s with
  | some n => (n : Int)
  | none => -1

/-- Index of the last occurrence of character `c` in `s`, or -1. -/
def lastIdxOf (c : Char) : PyStr → Int
  | [] => -1
  | x :: rest =>
    let r := lastIdxOf c rest
    if 0 ≤ r then r + 1 else if x = c then 0 else -1

/-- Model of Python `s.rfind(' ', 0, end_)`: last index of a space strictly
inside `s[0:end_]`, or -1. -/
def pyRFindSpace (s : PyStr) (end_ : ℕ) : Int :=
  lastIdxOf ' ' (s.take end_)

/-- Minimum of a nonempty list of integers (Python `min`); `d` is returned for
the empty list, which callers rule out. -/
def intListMin (d : Int) : List Int → Int
  | [] => d
  | v :: vs => vs.foldl min v

/-- `DataExtractor.extract_hook` (src/tiktok-scraper/data_extractor.py, lines
162–196): find the earliest of newline/`!`/`?`/`...`/`#` strictly between
position 0 and `max_length`, truncate through it and strip; otherwise return the
caption verbatim if short enough, else truncate at the last space before
`max_length` (or hard-truncate) and append an ellipsis. -/
def extract_hook (caption : PyStr) (max_length : ℕ := 50) : PyStr :=
  if caption = [] then []
  else
    let clean_caption := pstrip caption
    let break_points : List Int :=
      [pyFind clean_caption [ '\n'],
       pyFind clean_caption [ '!'],
       pyFind clean_caption [ '?'],
       pyFind clean_caption [ '.', '.', '.'],
       pyFind clean_caption [ '#']]
    let valid_breaks := break_points.filter fun bp => 0 < bp ∧ bp < (max_length : Int)
    if valid_breaks ≠ [] then
      let hook_end := intListMin 0 valid_breaks + 1
      pstrip (clean_caption.take hook_end.toNat)
    else if clean_caption.length ≤ max_length then clean_caption
    else
      let space_before := pyRFindSpace clean_caption max_length
      if 0 < space_before then
        pstrip (clean_caption.take space_before.toNat) ++ [ '.', '.', '.']
      else
        pstrip (clean_caption.take max_length) ++ [ '.', '.', '.']

/-- One candidate offered to the deduplicating collector of
`EnhancedPinterestScraper.scrape_category` (src/enhanced_scraper.py, lines
329–352): the loop `while len(scraped_images) < target_count` breaks when the
target is reached, and an extracted item is stored only when its `image_url`
key is not already present (`img_data['image_url'] not in scraped_images`).
The state is the insertion-ordered association list `scraped_images`; the
returned Bool is whether the candidate was accepted. -/
def offer {α : Type} (target_count : ℕ) (st : List (PyStr × α)) (key : PyStr)
    (item : α) : List (PyStr × α) × Bool :=
  if target_count ≤ st.length then (st, false)
  else if key ∈ st.map Prod.fst then (st, false)
  else (st ++ [(key, item)], true)

/-- Run a whole sequence of candidate offers through the collector, starting
from the empty `scraped_images` dictionary. -/
def runOffers {α : Type} (target_count : ℕ) (offers : List (PyStr × α)) :
    List (PyStr × α) :=
  offers.foldl (fun st kv => (offer target_count st kv.1 kv.2).1) []

/-- Stall bookkeeping of `scrape_category` (src/enhanced_scraper.py, lines
362–370): a pass that accepted no new image increments
`no_new_images_count` and the loop breaks once that counter exceeds 15; a pass
that accepted at least one image resets the counter to 0.  Returns the new
counter and whether the loop stops. -/
def stall_update (no_new_images_count : ℕ) (newly_accepted : ℕ) : ℕ × Bool :=
  if newly_accepted = 0 then
    (no_new_images_count + 1, decide (15 < no_new_images_count + 1))
  else (0, false)

/-- Fold `stall_update` over the per-pass acceptance counts of a whole run;
once the stop signal fires the remaining passes do not happen. -/
def stall_run (passes : List ℕ) : ℕ × Bool :=
  passes.foldl (fun st a => if st.2 then st else stall_update st.1 a) (0, false)

/-- Number of consecutive zero-yield passes at the end of a run. -/
def trailingZeroPasses (passes : List ℕ) : ℕ :=
  (passes.reverse.takeWhile (· = 0)).length

/-- Result tuple of `EnhancedPinterestScraper.is_social_media_compatible`:
`(is_compatible, best_match, best_score, quality_tier)`. -/
structure ClassifyResult where
  is_compatible : Bool
  best_match : Option PyStr
  best_score : ℕ
  quality_tier : Option PyStr
deriving DecidableEq

/-- `self.target_aspect_ratios` (src/enhanced_scraper.py, lines 22–32). -/
def target_aspect_ratios : List (ℕ × ℕ) :=
  [(9, 16), (1, 1), (4, 5), (3, 4), (2, 3), (5, 8)]

/-- Tier-1 ratios (src/enhanced_scraper.py, line 145). -/
def perfect_ratios : List (ℕ × ℕ) := [(9, 16), (1, 1), (4, 5)]

/-- `self.preferred_dimensions` (src/enhanced_scraper.py, lines 34–37). -/
def preferred_dimensions : List (ℕ × ℕ) :=
  [(1080, 1920), (1080, 1080), (1080, 1350), (1080, 1440), (1080, 1620), (1080, 1728)]

/-- `self.min_resolution` (src/enhanced_scraper.py, line 33). -/
def min_resolution : ℕ := 500

/-- The aspect-ratio tolerance (src/enhanced_scraper.py, line 139).  Python
float `0.35`; modelled exactly as a rational. -/
def ratio_tolerance : ℚ := 35 / 100

/-- The string `f"{target_w}:{target_h}"` (src/enhanced_scraper.py, line 188). -/
def ratioName (tw th : ℕ) : PyStr :=
  (toString tw).toList ++ [ ':'] ++ (toString th).toList

/-- Per-catalog-entry quality score (src/enhanced_scraper.py, lines 153–184):
tier from membership in the perfect list; 100/85 override when `(w,h)` or its
swap is a preferred dimension; otherwise base 80/60 plus resolution bonuses. -/
def candidate_score (width height tw th : ℕ) : ℕ :=
  let tier_is_perfect : Bool := decide ((tw, th) ∈ perfect_ratios)
  if (width, height) ∈ preferred_dimensions ∨
      (height, width) ∈ preferred_dimensions then
    if tier_is_perfect then 100 else 85
  else
    let base_score := if tier_is_perfect then 80 else 60
    let min_dim := min width height
    let max_dim := max width height
    let res_bonus := if 1080 ≤ min_dim then 15 else if 720 ≤ min_dim then 10 else 0
    let max_bonus := if 1920 ≤ max_dim then 5 else if 1440 ≤ max_dim then 3 else 0
    base_score + res_bonus + max_bonus

/-- One iteration of the `for target_w, target_h in self.target_aspect_ratios`
loop (src/enhanced_scraper.py, lines 149–189), acting on the running
`(best_match, best_score, quality_tier)` state: on a ratio within tolerance
whose candidate score strictly beats the running best, replace the state. -/
def classifyStep (width height : ℕ) (st : Option PyStr × ℕ × Option PyStr)
    (twth : ℕ × ℕ) : Option PyStr × ℕ × Option PyStr :=
  let target_ratio : ℚ := (twth.1 : ℚ) / (twth.2 : ℚ)
  if |(width : ℚ) / (height : ℚ) - target_ratio| ≤ ratio_tolerance then
    let score := candidate_score width height twth.1 twth.2
    if st.2.1 < score then
      (some (ratioName twth.1 twth.2), score,
       some (if decide ((twth.1, twth.2) ∈ perfect_ratios)
             then String.toList "perfect" else String.toList "croppable"))
    else st
  else st

/-- `EnhancedPinterestScraper.is_social_media_compatible`
(src/enhanced_scraper.py, lines 126–191): reject zero dimensions or
`max(width,height) < min_resolution * 0.8`; otherwise fold over the catalog,
keeping the entry with the strictly highest candidate score (the first entry
wins ties, matching `if score > best_score`).  Python float division is
modelled by exact rational division. -/
def is_social_media_compatible (width height : ℕ) : ClassifyResult :=
  if width = 0 ∨ height = 0 then ⟨false, none, 0, none⟩
  else if ((max width height : ℕ) : ℚ) < (min_resolution : ℚ) * (8 / 10) then
    ⟨false, none, 0, none⟩
  else
    let best := target_aspect_ratios.foldl (classifyStep width height)
      ((none : Option PyStr), 0, (none : Option PyStr))
    ⟨best.1.isSome, best.1, best.2.1, best.2.2⟩

/-- The aspect ratio of `(w,h)` is within tolerance of the catalog ratio
`tw:th`. -/
abbrev ratioMatch (w h tw th : ℕ) : Prop :=
  |(w : ℚ) / (h : ℚ) - (tw : ℚ) / (th : ℚ)| ≤ ratio_tolerance

/-- Shorthand for string literals as `PyStr`. -/
def toL (s : String) : PyStr := s.toList

/-- `re.search` of a prefix-alternation pattern `^(p1|p2|...)`: some
alternative is a prefix of the text. -/
def startsWithAnyOf (ps : List PyStr) (s : PyStr) : Bool :=
  ps.any fun p => decide (p <+: s)

/-- `re.search` of a plain substring pattern. -/
def containsSub (p s : PyStr) : Bool := decide (p <:+: s)

/-- `re.search` of a substring-alternation pattern `(p1|p2|...)`: one pattern
hit no matter how many alternatives occur. -/
def containsAnyOf (ps : List PyStr) (s : PyStr) : Bool :=
  ps.any fun p => decide (p <:+: s)

/-- `re.search` of `^\d+...`: the text starts with a digit. -/
def headIsDigit (s : PyStr) : Bool :=
  match s with
  | [] => false
  | c :: _ => c.isDigit

/-- `re.search` of `^[A-Z]` under `re.IGNORECASE` (ASCII model): the text
starts with a letter. -/
def headIsAsciiLetter (s : PyStr) : Bool :=
  match s with
  | [] => false
  | c :: _ => decide (('A' ≤ c ∧ c ≤ 'Z') ∨ ('a' ≤ c ∧ c ≤ 'z'))

/-- `re.search` of `!+$` on an already-stripped text: it ends with `!`
(`$` may also match before a final newline, but `strip()` has removed any). -/
def endsWithBang (s : PyStr) : Bool :=
  match s.getLast? with
  | some c => decide (c = '!')
  | none => false

/-- `HookAnalyzer.hook_patterns` (src/tiktok-scraper/hook_analyzer.py, lines
17–58): category name, weight, and the list of regex patterns, each compiled
to the character-level matcher it denotes on the lowercased, stripped hook:
prefix alternations to `startsWithAnyOf`, substring patterns to `containsSub`
(`reasons?`/`ways?`/`things?`/`tips?` match iff the stem without `s` occurs),
`\?` and `#`-free substrings to containment, `^(\d+|top|best|worst)` to a
digit head or prefix alternation, `!+$` to `endsWithBang`, and the emoji
alternation to `containsAnyOf` over the five emoji characters. -/
def hook_patterns : List (PyStr × ℚ × List (PyStr → Bool)) :=
  [ (toL "question", 15 / 10,
      [ fun s => startsWithAnyOf [toL "what", toL "why", toL "how", toL "when",
          toL "where", toL "who", toL "which", toL "can", toL "do", toL "does",
          toL "did", toL "is", toL "are", toL "will", toL "would",
          toL "should"] s,
        fun s => containsSub (toL "?") s ]),
    (toL "statement", 1,
      [ fun s => startsWithAnyOf [toL "i", toL "you", toL "we", toL "they",
          toL "this", toL "that", toL "here"] s,
        fun s => headIsAsciiLetter s ]),
    (toL "story", 13 / 10,
      [ fun s => startsWithAnyOf [toL "once", toL "yesterday", toL "today",
          toL "last", toL "when i", toL "story time", toL "pov",
          toL "imagine"] s,
        fun s => containsSub (toL "story") s,
        fun s => containsSub (toL "time") s ]),
    (toL "list", 14 / 10,
      [ fun s => headIsDigit s || startsWithAnyOf [toL "top", toL "best",
          toL "worst"] s,
        fun s => containsSub (toL "reason") s,
        fun s => containsSub (toL "way") s,
        fun s => containsSub (toL "thing") s,
        fun s => containsSub (toL "tip") s ]),
    (toL "challenge", 12 / 10,
      [ fun s => containsSub (toL "challenge") s,
        fun s => containsSub (toL "try") s,
        fun s => containsSub (toL "can you") s,
        fun s => containsSub (toL "bet you") s,
        fun s => containsSub (toL "dare") s ]),
    (toL "emotional", 16 / 10,
      [ fun s => containsAnyOf [toL "never", toL "always", toL "everyone",
          toL "no one", toL "must", toL "need"] s,
        fun s => endsWithBang s,
        fun s => containsAnyOf [[Char.ofNat 0x1F631], [Char.ofNat 0x1F62D],
          [Char.ofNat 0x1F92F], [Char.ofNat 0x1F480], [Char.ofNat 0x1F525]] s ]),
    (toL "educational", 13 / 10,
      [ fun s => containsSub (toL "learn") s,
        fun s => containsSub (toL "teach") s,
        fun s => containsSub (toL "explain") s,
        fun s => containsSub (toL "guide") s,
        fun s => containsSub (toL "tutorial") s,
        fun s => containsSub (toL "how to") s ]),
    (toL "controversial", 17 / 10,
      [ fun s => containsSub (toL "unpopular opinion") s,
        fun s => containsSub (toL "hot take") s,
        fun s => containsSub (toL "controversial") s,
        fun s => containsSub (toL "nobody talks about") s ]) ]

/-- Accumulated score of one category on the processed hook: the loop
`for pattern in patterns: if re.search(...): score += config["weight"]`
(src/tiktok-scraper/hook_analyzer.py, lines 69–74). -/
def categoryScore (hl : PyStr) (cwp : PyStr × ℚ × List (PyStr → Bool)) : ℚ :=
  cwp.2.2.foldl (fun s p => if p hl then s + cwp.2.1 else s) 0

/-- `HookAnalyzer.categorize_hook` (src/tiktok-scraper/hook_analyzer.py, lines
60–86): empty hook gives unknown; otherwise each category with positive score
stores `min(score, 1.0)` (in the fixed declaration order, which Python dict
insertion order preserves); a nonempty score dict is renormalised to sum 1,
an empty one falls back to general.  Python floats are modelled by `ℚ`. -/
def categorize_hook (hook : PyStr) : List (PyStr × ℚ) :=
  if hook = [] then [(toL "unknown", 1)]
  else
    let hook_lower := pstrip (asciiLower hook)
    let scores := hook_patterns.foldl
      (fun acc cwp =>
        if 0 < categoryScore hook_lower cwp then
          acc ++ [(cwp.1, min (categoryScore hook_lower cwp) 1)]
        else acc)
      []
    if scores = [] then [(toL "general", 1)]
    else scores.map fun kv => (kv.1, kv.2 / (scores.map Prod.snd).sum)

/-- Python `max(items, key=lambda x: x[1])`: the first item whose value no
later item strictly exceeds. -/
def py_max_by_snd : List (PyStr × ℚ) → Option (PyStr × ℚ)
  | [] => none
  | x :: xs => some (xs.foldl (fun b y => if b.2 < y.2 then y else b) x)

/-- `primary_category = max(categories.items(), key=lambda x: x[1])[0] if
categories else "unknown"` (src/tiktok-scraper/hook_analyzer.py, line 187). -/
def primary_category (categories : List (PyStr × ℚ)) : PyStr :=
  match py_max_by_snd categories with
  | some kv => kv.1
  | none => toL "unknown"

/-- The categories with at least one matching pattern on the processed hook,
in declaration order. -/
def matched_categories (hook : PyStr) : List PyStr :=
  (hook_patterns.filter
    (fun cwp => cwp.2.2.any fun p => p (pstrip (asciiLower hook)))).map
    (fun cwp => cwp.1)

/-- Derived view of the `scores` dictionary built by `categorize_hook` before
normalisation: the categories with positive accumulated score, each capped at
1.0 (used to state and prove the characterisation lemmas). -/
def categorize_scores (hook : PyStr) : List (PyStr × ℚ) :=
  (hook_patterns.filter fun cwp =>
      decide (0 < categoryScore (pstrip (asciiLower hook)) cwp)).map
    (fun cwp => (cwp.1, min (categoryScore (pstrip (asciiLower hook)) cwp) 1))

/-- JSON values, the shape of the records probed by
`DataExtractor.is_slideshow_post` (numbers restricted to integers; the claims
do not depend on float formatting). -/
inductive JValue where
  | null : JValue
  | bool (b : Bool) : JValue
  | num (n : Int) : JValue
  | str (s : PyStr) : JValue
  | arr (items : List JValue) : JValue
  | obj (fields : List (PyStr × JValue)) : JValue

/-- Lowercase hexadecimal digit, as produced by `json.dumps` escapes. -/
def hexDigitChar (n : ℕ) : Char :=
  if n < 10 then Char.ofNat (48 + n) else Char.ofNat (87 + n)

/-- Four lowercase hex digits of a code unit. -/
def hex4 (n : ℕ) : PyStr :=
  [hexDigitChar (n / 4096 % 16), hexDigitChar (n / 256 % 16),
   hexDigitChar (n / 16 % 16), hexDigitChar (n % 16)]

/-- `json.dumps` escaping of one character with the default `ensure_ascii`:
shortcuts for the two-character escapes, `\u00XX` for other controls, the
character itself for printable ASCII, and `\uXXXX` (with surrogate pairs
beyond the BMP) for everything non-ASCII. -/
def jsonEscapeChar (c : Char) : PyStr :=
  if c = '"' then [ '\\', '"']
  else if c = '\\' then [ '\\', '\\']
  else if c = '\n' then [ '\\', 'n']
  else if c = '\r' then [ '\\', 'r']
  else if c = '\t' then [ '\\', 't']
  else if c = Char.ofNat 8 then [ '\\', 'b']
  else if c = Char.ofNat 12 then [ '\\', 'f']
  else if c.toNat < 32 then '\\' :: 'u' :: hex4 c.toNat
  else if c.toNat < 127 then [c]
  else if c.toNat < 65536 then '\\' :: 'u' :: hex4 c.toNat
  else
    ('\\' :: 'u' :: hex4 (55296 + (c.toNat - 65536) / 1024)) ++
    ('\\' :: 'u' :: hex4 (56320 + (c.toNat - 65536) % 1024))

/-- A JSON string literal: quoted and escaped. -/
def jsonQuote (s : PyStr) : PyStr :=
  '"' :: (s.map jsonEscapeChar).flatten ++ [ '"']

/-- Join pieces with a separator (`", ".join` / the default separators of
`json.dumps`). -/
def joinSep (sep : PyStr) : List PyStr → PyStr
  | [] => []
  | [x] => x
  | x :: xs => x ++ sep ++ joinSep sep xs

mutual
/-- `json.dumps` with Python's default separators `", "` and `": "`. -/
def dumps : JValue → PyStr
  | .null => toL "null"
  | .bool true => toL "true"
  | .bool false => toL "false"
  | .num n => (toString n).toList
  | .str s => jsonQuote s
  | .arr items => '[' :: joinSep (toL ", ") (dumpsList items) ++ [ ']']
  | .obj fields =>
      Char.ofNat 123 :: joinSep (toL ", ") (dumpsObj fields) ++ [Char.ofNat 125]
/-- Serialisations of the elements of a JSON array. -/
def dumpsList : List JValue → List PyStr
  | [] => []
  | v :: vs => dumps v :: dumpsList vs
/-- Serialisations of the key/value pairs of a JSON object. -/
def dumpsObj : List (PyStr × JValue) → List PyStr
  | [] => []
  | (k, v) :: rest => (jsonQuote k ++ toL ": " ++ dumps v) :: dumpsObj rest
end

/-- Python `repr` escaping of one string character given the chosen quote
(control characters as `\xXX`; printable non-ASCII kept, an ASCII-level
approximation of CPython's printability rules). -/
def reprEscapeChar (q : Char) (c : Char) : PyStr :=
  if c = '\\' then [ '\\', '\\']
  else if c = q then [ '\\', q]
  else if c = '\n' then [ '\\', 'n']
  else if c = '\r' then [ '\\', 'r']
  else if c = '\t' then [ '\\', 't']
  else if c.toNat < 32 ∨ c.toNat = 127 then
    '\\' :: 'x' :: [hexDigitChar (c.toNat / 16), hexDigitChar (c.toNat % 16)]
  else [c]

/-- Python `repr` of a string: single quotes unless the text contains a single
quote and no double quote. -/
def reprQuote (s : PyStr) : PyStr :=
  let q : Char := if s.contains '\'' ∧ ¬ s.contains '"' then '"' else '\''
  q :: (s.map (reprEscapeChar q)).flatten ++ [q]

mutual
/-- Python `repr` of a parsed JSON value. -/
def pyRepr : JValue → PyStr
  | .null => toL "None"
  | .bool true => toL "True"
  | .bool false => toL "False"
  | .num n => (toString n).toList
  | .str s => reprQuote s
  | .arr items => '[' :: joinSep (toL ", ") (pyReprList items) ++ [ ']']
  | .obj fields =>
      Char.ofNat 123 :: joinSep (toL ", ") (pyReprObj fields) ++ [Char.ofNat 125]
/-- Reprs of the elements of a list value. -/
def pyReprList : List JValue → List PyStr
  | [] => []
  | v :: vs => pyRepr v :: pyReprList vs
/-- Reprs of the items of a dict value. -/
def pyReprObj : List (PyStr × JValue) → List PyStr
  | [] => []
  | (k, v) :: rest => (reprQuote k ++ toL ": " ++ pyRepr v) :: pyReprObj rest
end

/-- Python `str()` of a parsed JSON value (`str` of a string is the string
itself, everything else falls back to `repr`). -/
def pyToStr : JValue → PyStr
  | .str s => s
  | v => pyRepr v

/-- Dictionary lookup (`post_data.get(key)`). -/
def lookupKey (fields : List (PyStr × JValue)) (key : PyStr) : Option JValue :=
  match fields with
  | [] => none
  | (k, v) :: rest => if k = key then some v else lookupKey rest key

/-- Scanner for `str.count`: non-overlapping occurrences of a nonempty needle,
scanning left to right and skipping the needle's length on each hit. -/
def countSubAux (n0 : Char) (ntail : PyStr) : PyStr → ℕ
  | [] => 0
  | c :: rest =>
    if (n0 :: ntail) <+: (c :: rest) then
      1 + countSubAux n0 ntail (rest.drop ntail.length)
    else countSubAux n0 ntail rest
termination_by s => s.length
decreasing_by
  · simp only [List.length_cons]
    have := List.length_drop ntail.length rest
    omega
  · simp

/-- Python `str.count` (the empty needle counts length+1 gaps). -/
def countSub (needle : PyStr) (s : PyStr) : ℕ :=
  match needle with
  | [] => s.length + 1
  | n0 :: ntail => countSubAux n0 ntail s

/-- `DataExtractor.slideshow_indicators`
(src/tiktok-scraper/data_extractor.py, lines 16–19). -/
def slideshow_indicators : List PyStr :=
  [toL "photo", toL "slideshow", toL "carousel", toL "swipe", toL "album",
   toL "ImagePost", toL "multi", toL "gallery"]

/-- Final check of `is_slideshow_post` (src/tiktok-scraper/data_extractor.py,
lines 81–85): an `images` field holding a list with more than one entry. -/
def slideshow_check_4 (fields : List (PyStr × JValue)) : Bool :=
  match lookupKey fields (toL "images") with
  | some (.arr items) => decide (1 < items.length)
  | _ => false

/-- Checks 3 and 4 of `is_slideshow_post` (src/tiktok-scraper/data_extractor.py,
lines 75–85): a `type` field whose `str()` form contains an indicator (the
indicators are not lowercased here, exactly as in the source), then the image
array check.  On non-dict inputs `"type" in post_data` either raises
(numbers, booleans, None) or succeeds but the subsequent `.get` attribute
access raises (strings, lists); the surrounding try/except returns False. -/
def slideshow_checks_34 (post_data : JValue) : Bool :=
  match post_data with
  | .obj fields =>
      match lookupKey fields (toL "type") with
      | some tv =>
          if slideshow_indicators.any
              (fun ind => decide (ind <:+: asciiLower (pyToStr tv))) then true
          else slideshow_check_4 fields
      | none => slideshow_check_4 fields
  | _ => false

/-- `DataExtractor.is_slideshow_post` (src/tiktok-scraper/data_extractor.py,
lines 57–89): true when an indicator substring occurs in the lowercased
`json.dumps` serialisation, or when more than one `imageurl` occurrence is
counted there, or when checks 3/4 on the record itself succeed. -/
def is_slideshow_post (post_data : JValue) : Bool :=
  let post_str := asciiLower (dumps post_data)
  if slideshow_indicators.any
      (fun ind => decide (asciiLower ind <:+: post_str)) then true
  else if decide ((toL "imageurls") <:+: post_str) ||
      decide ((toL "imageurl") <:+: post_str) then
    if 1 < countSub (toL "imageurl") post_str then true
    else slideshow_checks_34 post_data
  else slideshow_checks_34 post_data

/-- The video-thumbnail path marker (src/enhanced_scraper.py, line 196). -/
def videosMarker : PyStr := toL "/videos/"

/-- The first all-zero frame marker (src/enhanced_scraper.py, line 196). -/
def zeroMarker0 : PyStr := toL ".0000000."

/-- The second frame marker (src/enhanced_scraper.py, line 196). -/
def zeroMarker1 : PyStr := toL ".0000001."

/-- `url` matches one of the three video-placeholder markers. -/
def videoPlaceholder (url : PyStr) : Prop :=
  videosMarker <:+: url ∨ zeroMarker0 <:+: url ∨ zeroMarker1 <:+: url

instance (url : PyStr) : Decidable (videoPlaceholder url) := by
  unfold videoPlaceholder
  infer_instance

/-- The regex character class `[a-f0-9]`. -/
def hexLow (c : Char) : Bool :=
  decide (('a' ≤ c ∧ c ≤ 'f') ∨ ('0' ≤ c ∧ c ≤ '9'))

/-- The literal scheme/host prefix of both thumbnail regexes
(`https://i\.pinimg\.com/`). -/
def pinPfx : PyStr := toL "https://i.pinimg.com/"

/-- The originals prefix used to rebuild the canonical URL
(src/enhanced_scraper.py, line 222). -/
def origPfx : PyStr := toL "https://i.pinimg.com/originals/"

/-- Consume the host prefix: both regexes are anchored at the start by
`re.match`. -/
def stripPinPfx (url : PyStr) : Option PyStr :=
  if pinPfx <+: url then some (url.drop pinPfx.length) else none

/-- Consume the size-bucket segment: `\d+x/` (first pattern, line 213) or
`\d+x\d+/` (second pattern, line 214).  Since `x` and `/` are not digits, the
greedy `\d+` with backtracking succeeds exactly on the maximal digit runs, so
the two patterns merge into: digits, `x`, then either `/` directly or digits
and `/`. -/
def parseSizeSeg (s : PyStr) : Option PyStr :=
  match s.takeWhile Char.isDigit, s.dropWhile Char.isDigit with
  | [], _ => none
  | _ :: _, 'x' :: '/' :: r3 => some r3
  | _ :: _, 'x' :: r2 =>
      match r2.takeWhile Char.isDigit, r2.dropWhile Char.isDigit with
      | [], _ => none
      | _ :: _, '/' :: r5 => some r5
      | _, _ => none
  | _, _ => none

/-- Consume the capture group `([a-f0-9]{2}/[a-f0-9]{2}/[a-f0-9]{2}/[^/]+)`:
three hex pairs with slashes, then a maximal nonempty run of non-slash
characters (the greedy `[^/]+`; the regexes are not end-anchored, so trailing
text after that run is simply dropped). -/
def parseGroup (s : PyStr) : Option PyStr :=
  match s with
  | a :: b :: '/' :: c :: d :: '/' :: e :: f :: '/' :: rest =>
      if hexLow a ∧ hexLow b ∧ hexLow c ∧ hexLow d ∧ hexLow e ∧ hexLow f then
        if rest.takeWhile (fun ch => decide (ch ≠ '/')) = [] then none
        else some ([a, b, '/', c, d, '/', e, f, '/'] ++
          rest.takeWhile (fun ch => decide (ch ≠ '/')))
      else none
  | _ => none

/-- `EnhancedPinterestScraper.convert_to_original_url`
(src/enhanced_scraper.py, lines 193–225): reject video placeholders, keep
URLs already containing `originals`, otherwise rewrite a recognised
fixed-size bucket path to the originals bucket, and reject anything else. -/
def convert_to_original_url (url : PyStr) : Option PyStr :=
  if videoPlaceholder url then none
  else if (toL "originals") <:+: url then some url
  else
    match stripPinPfx url with
    | none => none
    | some s1 =>
      match parseSizeSeg s1 with
      | none => none
      | some s2 =>
        match parseGroup s2 with
        | none => none
        | some path => some (origPfx ++ path)

/-- The URL-level decisions of `EnhancedPinterestScraper.extract_image_data`
(src/enhanced_scraper.py, lines 227–247) before any network access: reject a
missing/non-Pinterest `src`, tiny profile-picture buckets (60x60, 75x75 and
the configured 140x marker), video placeholders, and then canonicalise. -/
def extract_image_data_url (src : PyStr) : Option PyStr :=
  if src = [] ∨ ¬ (toL "pinimg.com") <:+: src then none
  else if (toL "/60x60/") <:+: src ∨ (toL "/75x75/") <:+: src ∨
      (toL "/140x/") <:+: src then none
  else if videoPlaceholder src then none
  else convert_to_original_url src

-- ===================================================================
-- Theorems
-- ===================================================================

/-- Helper: `offer` only ever appends, so membership in the state persists. -/
theorem offer_mem_mono {α : Type} (target : ℕ) (st : List (PyStr × α))
    (key : PyStr) (item : α) (kv : PyStr × α) (h : kv ∈ st) :
    kv ∈ (offer target st key item).1 := by
  unfold offer
  split_ifs <;> simp [h]

/-- Helper: the collector state length never exceeds the target. -/
theorem offer_length_le {α : Type} (target : ℕ) (st : List (PyStr × α))
    (key : PyStr) (item : α) (h : st.length ≤ target) :
    (offer target st key item).1.length ≤ target := by
  unfold offer
  split_ifs with h1 h2
  · exact h
  · exact h
  · simp only [List.length_append, List.length_cons, List.length_nil]
    omega

/-- Helper: the third branch of `offer` is reached only below the target, so
an accepted insertion never exceeds it. -/
theorem offer_fst_eq {α : Type} (target : ℕ) (st : List (PyStr × α))
    (key : PyStr) (item : α) (h1 : ¬ target ≤ st.length)
    (h2 : key ∉ st.map Prod.fst) :
    (offer target st key item).1 = st ++ [(key, item)] := by
  unfold offer
  rw [if_neg h1, if_neg h2]

/-- Helper: `offer` preserves distinctness of the stored keys. -/
theorem offer_nodup {α : Type} (target : ℕ) (st : List (PyStr × α))
    (key : PyStr) (item : α) (h : (st.map Prod.fst).Nodup) :
    ((offer target st key item).1.map Prod.fst).Nodup := by
  unfold offer
  split_ifs with h1 h2
  · exact h
  · exact h
  · simp only [List.map_append, List.map_cons, List.map_nil]
    rw [List.nodup_append]
    refine ⟨h, List.nodup_singleton _, ?_⟩
    intro a ha
    simp only [List.mem_singleton]
    intro hb
    exact h2 (hb ▸ ha)

/-- Helper: any property preserved by each `offer` step is preserved by the
fold over a whole offer sequence. -/
theorem foldl_offer_invariant {α : Type} (target : ℕ)
    (P : List (PyStr × α) → Prop)
    (hstep : ∀ st key item, P st → P (offer target st key item).1)
    (l : List (PyStr × α)) :
    ∀ st, P st → P (l.foldl (fun st kv => (offer target st kv.1 kv.2).1) st) := by
  induction l with
  | nil => intro st h; exact h
  | cons x xs ih => intro st h; exact ih _ (hstep st x.1 x.2 h)

/-- Helper: entries present in the state stay present under further offers. -/
theorem foldl_offer_mem {α : Type} (target : ℕ) (l : List (PyStr × α))
    (st : List (PyStr × α)) (kv : PyStr × α) (h : kv ∈ st) :
    kv ∈ l.foldl (fun st kv => (offer target st kv.1 kv.2).1) st :=
  foldl_offer_invariant target (fun s => kv ∈ s)
    (fun st key item hm => offer_mem_mono target st key item kv hm) l st h

/-- C4: for every sequence of candidate offers in one collection run, the
final collection size is at most `targetCount`, every stored key occurs
exactly once, a later offer whose key is already stored is rejected and leaves
the state unchanged (no overwrite), and every entry accepted after any prefix
of the run is still present, unchanged, at the end (first-seen wins). -/
theorem collector_dedup_invariant {α : Type} (target : ℕ)
    (offers : List (PyStr × α)) :
    (runOffers target offers).length ≤ target ∧
    ((runOffers target offers).map Prod.fst).Nodup ∧
    (∀ st (key : PyStr) (item : α), key ∈ st.map Prod.fst →
        offer target st key item = (st, false)) ∧
    (∀ pre post, offers = pre ++ post →
        ∀ kv, kv ∈ runOffers target pre → kv ∈ runOffers target offers) := by
  refine ⟨?_, ?_, ?_, ?_⟩
  · exact foldl_offer_invariant target (fun s => s.length ≤ target)
      (fun st key item h => offer_length_le target st key item h) offers []
      (by simp)
  · exact foldl_offer_invariant target (fun s => (s.map Prod.fst).Nodup)
      (fun st key item h => offer_nodup target st key item h) offers []
      (by simp)
  · intro st key item hk
    unfold offer
    split_ifs <;> rfl
  · intro pre post hsplit kv hm
    subst hsplit
    unfold runOffers at *
    rw [List.foldl_append]
    exact foldl_offer_mem target post _ kv hm

/-- Witness for C4 at a concrete run: with target 2 and offers
`a ↦ 1, a ↦ 2, b ↦ 3`, the entry `(a, 1)` accepted in the first pass is still
present at the end: the duplicate `a ↦ 2` did not overwrite it. -/
theorem collector_dedup_invariant_witness :
    ([ 'a'], (1 : ℕ)) ∈
      runOffers 2 [([ 'a'], 1), ([ 'a'], 2), ([ 'b'], 3)] := by
  refine (collector_dedup_invariant 2
      [([ 'a'], 1), ([ 'a'], 2), ([ 'b'], 3)]).2.2.2
    [([ 'a'], 1)] [([ 'a'], 2), ([ 'b'], 3)] rfl ([ 'a'], 1) (by decide)

/-- Helper: the trailing zero-yield count grows by one on a zero-yield pass
and resets on an accepting pass. -/
theorem trailingZero_append (ps : List ℕ) (a : ℕ) :
    trailingZeroPasses (ps ++ [a]) =
      if a = 0 then trailingZeroPasses ps + 1 else 0 := by
  unfold trailingZeroPasses
  rw [List.reverse_append]
  have h1 : ([a] : List ℕ).reverse ++ ps.reverse = a :: ps.reverse := by simp
  rw [h1, List.takeWhile_cons]
  by_cases ha : a = 0
  · simp [ha]
  · simp [ha]

/-- Helper: a zero-yield pass increments the stall counter. -/
theorem stall_update_fst_zero (n : ℕ) : (stall_update n 0).1 = n + 1 := rfl

/-- Helper: an accepting pass resets the stall counter. -/
theorem stall_update_fst_pos (n a : ℕ) (ha : a ≠ 0) :
    (stall_update n a).1 = 0 := by
  unfold stall_update
  rw [if_neg ha]

/-- C9: the collection loop's stop-on-stall signal fires exactly when the count
of consecutive zero-yield passes strictly exceeds 15; a pass that accepts at
least one item resets the counter to 0; at 15 or fewer consecutive stalls the
run is not abandoned; and as long as the signal has not fired the counter
equals the number of consecutive zero-yield passes at the end of the run. -/
theorem stall_patience_15 :
    (∀ n a, (stall_update n a).2 = true ↔ a = 0 ∧ 15 < n + 1) ∧
    (∀ n a, 1 ≤ a → stall_update n a = (0, false)) ∧
    (∀ n a, a = 0 → n + 1 ≤ 15 → (stall_update n a).2 = false) ∧
    (∀ passes, (stall_run passes).2 = false →
        (stall_run passes).1 = trailingZeroPasses passes) := by
  refine ⟨?_, ?_, ?_, ?_⟩
  · intro n a
    unfold stall_update
    split_ifs with h
    · simp [h]
    · simp [h]
  · intro n a ha
    unfold stall_update
    split_ifs with h
    · omega
    · rfl
  · intro n a ha hn
    subst ha
    have hle : ¬ 15 < n + 1 := by omega
    simp [stall_update, hle]
  · intro passes
    induction passes using List.reverseRecOn with
    | nil => intro _; rfl
    | append_singleton ps a ih =>
        intro hstop
        unfold stall_run at *
        rw [List.foldl_append] at hstop ⊢
        simp only [List.foldl_cons, List.foldl_nil] at hstop ⊢
        by_cases hps : (List.foldl (fun st a => if st.2 then st else stall_update st.1 a) (0, false) ps).2 = true
        · rw [if_pos hps] at hstop
          exact absurd hstop (by simp [hps])
        · rw [if_neg hps] at hstop ⊢
          have hcount := ih (by simpa using hps)
          rw [trailingZero_append]
          by_cases ha : a = 0
          · subst ha
            rw [stall_update_fst_zero, hcount, if_pos rfl]
          · rw [stall_update_fst_pos _ _ ha, if_neg ha]

/-- Witness for C9: at the 16th consecutive zero-yield pass the signal fires
(counter was 15), a pass accepting 2 items resets the counter, and a run of
15 zero-yield passes is not abandoned and ends with counter 15. -/
theorem stall_patience_15_witness :
    (stall_update 15 0).2 = true ∧ stall_update 7 2 = (0, false) ∧
    (stall_update 14 0).2 = false ∧
    (stall_run (List.replicate 15 0)).1 = trailingZeroPasses (List.replicate 15 0) := by
  refine ⟨?_, ?_, ?_, ?_⟩
  · exact (stall_patience_15.1 15 0).mpr ⟨rfl, by omega⟩
  · exact stall_patience_15.2.1 7 2 (by omega)
  · exact stall_patience_15.2.2.1 14 0 rfl (by omega)
  · exact stall_patience_15.2.2.2 (List.replicate 15 0) (by decide)

/-- C8: `extractHook` on the caption `This is amazing! Follow for more #viral`
with `maxLength` 50 truncates through the earliest break character before
position 50 — the `!` at index 15, earlier than the `#` at index 33 — and
strips, giving `This is amazing!`. -/
theorem extract_hook_amazing :
    extract_hook
      (String.toList "This is amazing! Follow for more #viral") 50 =
      String.toList "This is amazing!" ∧
    pyFind (String.toList "This is amazing! Follow for more #viral") [ '!'] = 15 ∧
    pyFind (String.toList "This is amazing! Follow for more #viral") [ '#'] = 33 := by
  refine ⟨by decide, by decide, by decide⟩

-- Classifier helper lemmas ------------------------------------------------

/-- Helper: closed form of the candidate score for the 9:16 catalog entry. -/
theorem candidate_score_916 (w h : ℕ) :
    candidate_score w h 9 16 =
      if (w, h) ∈ preferred_dimensions ∨ (h, w) ∈ preferred_dimensions then 100
      else 80 + (if 1080 ≤ min w h then 15 else if 720 ≤ min w h then 10 else 0)
             + (if 1920 ≤ max w h then 5 else if 1440 ≤ max w h then 3 else 0) := rfl

/-- Helper: closed form of the candidate score for the 3:4 catalog entry. -/
theorem candidate_score_34 (w h : ℕ) :
    candidate_score w h 3 4 =
      if (w, h) ∈ preferred_dimensions ∨ (h, w) ∈ preferred_dimensions then 85
      else 60 + (if 1080 ≤ min w h then 15 else if 720 ≤ min w h then 10 else 0)
             + (if 1920 ≤ max w h then 5 else if 1440 ≤ max w h then 3 else 0) := rfl

/-- Helper: the two other perfect entries score exactly like 9:16. -/
theorem candidate_score_11 (w h : ℕ) :
    candidate_score w h 1 1 = candidate_score w h 9 16 := rfl

/-- Helper: the 4:5 entry scores exactly like 9:16. -/
theorem candidate_score_45 (w h : ℕ) :
    candidate_score w h 4 5 = candidate_score w h 9 16 := rfl

/-- Helper: the 2:3 entry scores exactly like 3:4. -/
theorem candidate_score_23 (w h : ℕ) :
    candidate_score w h 2 3 = candidate_score w h 3 4 := rfl

/-- Helper: the 5:8 entry scores exactly like 3:4. -/
theorem candidate_score_58 (w h : ℕ) :
    candidate_score w h 5 8 = candidate_score w h 3 4 := rfl

/-- Helper: a perfect-tier candidate score is positive. -/
theorem candidate_score_916_pos (w h : ℕ) : 0 < candidate_score w h 9 16 := by
  rw [candidate_score_916]
  split_ifs <;> omega

/-- Helper: a croppable candidate never strictly beats the perfect score. -/
theorem candidate_score_34_le (w h : ℕ) :
    candidate_score w h 3 4 ≤ candidate_score w h 9 16 := by
  rw [candidate_score_916, candidate_score_34]
  split_ifs <;> omega

/-- Helper: a matching entry that beats the running best replaces it. -/
theorem classifyStep_update (w h tw th : ℕ)
    (st : Option PyStr × ℕ × Option PyStr)
    (hm : ratioMatch w h tw th) (hs : st.2.1 < candidate_score w h tw th) :
    classifyStep w h st (tw, th) =
      (some (ratioName tw th), candidate_score w h tw th,
       some (if decide ((tw, th) ∈ perfect_ratios)
             then String.toList "perfect" else String.toList "croppable")) := by
  unfold classifyStep
  rw [if_pos hm, if_pos hs]

/-- Helper: a non-matching or non-improving entry leaves the state alone. -/
theorem classifyStep_stay (w h tw th : ℕ)
    (st : Option PyStr × ℕ × Option PyStr)
    (hk : ratioMatch w h tw th → ¬ st.2.1 < candidate_score w h tw th) :
    classifyStep w h st (tw, th) = st := by
  unfold classifyStep
  by_cases hm : ratioMatch w h tw th
  · rw [if_pos hm, if_neg (hk hm)]
  · rw [if_neg hm]

/-- Helper: a ratio within tolerance of 4:5 is within tolerance of 9:16 or of
1:1 (tolerance 0.35 makes the croppable bands subsets of the perfect bands). -/
theorem ratio45_subsumed (q : ℚ) (h45 : |q - (4 : ℚ) / 5| ≤ ratio_tolerance) :
    |q - (9 : ℚ) / 16| ≤ ratio_tolerance ∨ |q - (1 : ℚ) / 1| ≤ ratio_tolerance := by
  unfold ratio_tolerance at *
  rcases abs_le.mp h45 with ⟨hl, hr⟩
  by_cases hq : q ≤ 73 / 80
  · left
    rw [abs_le]
    constructor <;> linarith
  · right
    rw [abs_le]
    constructor <;> linarith

/-- Helper: a ratio within tolerance of 3:4 is within tolerance of 9:16 or 1:1. -/
theorem ratio34_subsumed (q : ℚ) (h34 : |q - (3 : ℚ) / 4| ≤ ratio_tolerance) :
    |q - (9 : ℚ) / 16| ≤ ratio_tolerance ∨ |q - (1 : ℚ) / 1| ≤ ratio_tolerance := by
  unfold ratio_tolerance at *
  rcases abs_le.mp h34 with ⟨hl, hr⟩
  by_cases hq : q ≤ 73 / 80
  · left
    rw [abs_le]
    constructor <;> linarith
  · right
    rw [abs_le]
    constructor <;> linarith

/-- Helper: a ratio within tolerance of 2:3 is within tolerance of 9:16 or 1:1. -/
theorem ratio23_subsumed (q : ℚ) (h23 : |q - (2 : ℚ) / 3| ≤ ratio_tolerance) :
    |q - (9 : ℚ) / 16| ≤ ratio_tolerance ∨ |q - (1 : ℚ) / 1| ≤ ratio_tolerance := by
  unfold ratio_tolerance at *
  rcases abs_le.mp h23 with ⟨hl, hr⟩
  by_cases hq : q ≤ 73 / 80
  · left
    rw [abs_le]
    constructor <;> linarith
  · right
    rw [abs_le]
    constructor <;> linarith

/-- Helper: a ratio within tolerance of 5:8 is within tolerance of 9:16 or 1:1. -/
theorem ratio58_subsumed (q : ℚ) (h58 : |q - (5 : ℚ) / 8| ≤ ratio_tolerance) :
    |q - (9 : ℚ) / 16| ≤ ratio_tolerance ∨ |q - (1 : ℚ) / 1| ≤ ratio_tolerance := by
  unfold ratio_tolerance at *
  rcases abs_le.mp h58 with ⟨hl, hr⟩
  by_cases hq : q ≤ 73 / 80
  · left
    rw [abs_le]
    constructor <;> linarith
  · right
    rw [abs_le]
    constructor <;> linarith

/-- Helper: full characterisation of the classifier on inputs passing the size
guards.  Because the croppable tolerance bands are contained in the perfect
ones and croppable candidates never strictly beat perfect ones, the best match
is always `9:16` (when within tolerance) or else `1:1`, always with
tier `perfect` and the perfect candidate score; otherwise the input is
rejected. -/
theorem classify_spec (w h : ℕ) (hw : ¬ (w = 0 ∨ h = 0))
    (hsz : ¬ ((max w h : ℕ) : ℚ) < (min_resolution : ℚ) * (8 / 10)) :
    (ratioMatch w h 9 16 →
      is_social_media_compatible w h =
        ⟨true, some (String.toList "9:16"), candidate_score w h 9 16,
         some (String.toList "perfect")⟩) ∧
    (¬ ratioMatch w h 9 16 → ratioMatch w h 1 1 →
      is_social_media_compatible w h =
        ⟨true, some (String.toList "1:1"), candidate_score w h 1 1,
         some (String.toList "perfect")⟩) ∧
    (¬ ratioMatch w h 9 16 → ¬ ratioMatch w h 1 1 →
      is_social_media_compatible w h = ⟨false, none, 0, none⟩) := by
  have hta : target_aspect_ratios =
      [(9, 16), (1, 1), (4, 5), (3, 4), (2, 3), (5, 8)] := rfl
  refine ⟨?_, ?_, ?_⟩
  · intro hb1
    unfold is_social_media_compatible
    rw [if_neg hw, if_neg hsz, hta]
    rw [List.foldl_cons,
      classifyStep_update w h 9 16 _ hb1 (candidate_score_916_pos w h)]
    rw [List.foldl_cons, classifyStep_stay w h 1 1 _
      (fun _ => by
        show ¬ candidate_score w h 9 16 < candidate_score w h 1 1
        rw [candidate_score_11]; omega)]
    rw [List.foldl_cons, classifyStep_stay w h 4 5 _
      (fun _ => by
        show ¬ candidate_score w h 9 16 < candidate_score w h 4 5
        rw [candidate_score_45]; omega)]
    rw [List.foldl_cons, classifyStep_stay w h 3 4 _
      (fun _ => by
        show ¬ candidate_score w h 9 16 < candidate_score w h 3 4
        have := candidate_score_34_le w h
        omega)]
    rw [List.foldl_cons, classifyStep_stay w h 2 3 _
      (fun _ => by
        show ¬ candidate_score w h 9 16 < candidate_score w h 2 3
        have := candidate_score_34_le w h
        rw [candidate_score_23]
        omega)]
    rw [List.foldl_cons, classifyStep_stay w h 5 8 _
      (fun _ => by
        show ¬ candidate_score w h 9 16 < candidate_score w h 5 8
        have := candidate_score_34_le w h
        rw [candidate_score_58]
        omega)]
    rw [List.foldl_nil]
    rfl
  · intro hb1 hb2
    unfold is_social_media_compatible
    rw [if_neg hw, if_neg hsz, hta]
    rw [List.foldl_cons, classifyStep_stay w h 9 16 _ (fun hm => absurd hm hb1)]
    rw [List.foldl_cons, classifyStep_update w h 1 1 _ hb2
      (by
        show (0 : ℕ) < candidate_score w h 1 1
        rw [candidate_score_11]; exact candidate_score_916_pos w h)]
    rw [List.foldl_cons, classifyStep_stay w h 4 5 _
      (fun _ => by
        show ¬ candidate_score w h 1 1 < candidate_score w h 4 5
        rw [candidate_score_45, candidate_score_11]; omega)]
    rw [List.foldl_cons, classifyStep_stay w h 3 4 _
      (fun _ => by
        show ¬ candidate_score w h 1 1 < candidate_score w h 3 4
        have := candidate_score_34_le w h
        rw [candidate_score_11]
        omega)]
    rw [List.foldl_cons, classifyStep_stay w h 2 3 _
      (fun _ => by
        show ¬ candidate_score w h 1 1 < candidate_score w h 2 3
        have := candidate_score_34_le w h
        rw [candidate_score_23, candidate_score_11]
        omega)]
    rw [List.foldl_cons, classifyStep_stay w h 5 8 _
      (fun _ => by
        show ¬ candidate_score w h 1 1 < candidate_score w h 5 8
        have := candidate_score_34_le w h
        rw [candidate_score_58, candidate_score_11]
        omega)]
    rw [List.foldl_nil]
    rfl
  · intro hb1 hb2
    have hb3 : ¬ ratioMatch w h 4 5 := fun hm =>
      (ratio45_subsumed _ hm).elim (fun t => hb1 t) (fun t => hb2 t)
    have hb4 : ¬ ratioMatch w h 3 4 := fun hm =>
      (ratio34_subsumed _ hm).elim (fun t => hb1 t) (fun t => hb2 t)
    have hb5 : ¬ ratioMatch w h 2 3 := fun hm =>
      (ratio23_subsumed _ hm).elim (fun t => hb1 t) (fun t => hb2 t)
    have hb6 : ¬ ratioMatch w h 5 8 := fun hm =>
      (ratio58_subsumed _ hm).elim (fun t => hb1 t) (fun t => hb2 t)
    unfold is_social_media_compatible
    rw [if_neg hw, if_neg hsz, hta]
    rw [List.foldl_cons, classifyStep_stay w h 9 16 _ (fun hm => absurd hm hb1)]
    rw [List.foldl_cons, classifyStep_stay w h 1 1 _ (fun hm => absurd hm hb2)]
    rw [List.foldl_cons, classifyStep_stay w h 4 5 _ (fun hm => absurd hm hb3)]
    rw [List.foldl_cons, classifyStep_stay w h 3 4 _ (fun hm => absurd hm hb4)]
    rw [List.foldl_cons, classifyStep_stay w h 2 3 _ (fun hm => absurd hm hb5)]
    rw [List.foldl_cons, classifyStep_stay w h 5 8 _ (fun hm => absurd hm hb6)]
    rw [List.foldl_nil]
    rfl

/-- Helper: an accepted input has the perfect-tier score and passed the size
guards. -/
theorem classify_accepted_score (w h : ℕ)
    (hacc : (is_social_media_compatible w h).is_compatible = true) :
    (is_social_media_compatible w h).best_score = candidate_score w h 9 16 := by
  by_cases hw : w = 0 ∨ h = 0
  · exfalso
    unfold is_social_media_compatible at hacc
    rw [if_pos hw] at hacc
    simp at hacc
  by_cases hsz : ((max w h : ℕ) : ℚ) < (min_resolution : ℚ) * (8 / 10)
  · exfalso
    unfold is_social_media_compatible at hacc
    rw [if_neg hw, if_pos hsz] at hacc
    simp at hacc
  have spec := classify_spec w h hw hsz
  by_cases hb1 : ratioMatch w h 9 16
  · rw [spec.1 hb1]
  by_cases hb2 : ratioMatch w h 1 1
  · rw [spec.2.1 hb1 hb2]
    exact candidate_score_11 w h
  · exfalso
    rw [spec.2.2 hb1 hb2] at hacc
    simp at hacc

/-- Helper: every preferred dimension pair has minimum side exactly 1080. -/
theorem preferred_min_1080 (w h : ℕ)
    (hp : (w, h) ∈ preferred_dimensions ∨ (h, w) ∈ preferred_dimensions) :
    min w h = 1080 := by
  rcases hp with hp | hp <;>
    simp only [preferred_dimensions, List.mem_cons, List.mem_singleton,
      List.not_mem_nil, or_false, Prod.mk.injEq] at hp <;>
    rcases hp with ⟨rfl, rfl⟩ | ⟨rfl, rfl⟩ | ⟨rfl, rfl⟩ | ⟨rfl, rfl⟩ |
      ⟨rfl, rfl⟩ | ⟨rfl, rfl⟩ <;> decide

/-- Helper: concrete evaluation of the classifier at (1080,1440) via the
characterisation (rational arithmetic discharged by `norm_num`). -/
theorem classify_1080_1440_eval :
    is_social_media_compatible 1080 1440 =
      ⟨true, some (String.toList "9:16"), 100, some (String.toList "perfect")⟩ := by
  have h := (classify_spec 1080 1440 (by decide)
    (by
      show ¬ ((1440 : ℕ) : ℚ) < ((500 : ℕ) : ℚ) * (8 / 10)
      norm_num)).1
    (by
      show |((1080 : ℕ) : ℚ) / ((1440 : ℕ) : ℚ) -
        ((9 : ℕ) : ℚ) / ((16 : ℕ) : ℚ)| ≤ ratio_tolerance
      rw [abs_le]
      constructor <;> norm_num [ratio_tolerance])
  rw [h]
  decide

/-- Helper: concrete evaluation of the classifier at (1100,1500). -/
theorem classify_1100_1500_eval :
    is_social_media_compatible 1100 1500 =
      ⟨true, some (String.toList "9:16"), 98, some (String.toList "perfect")⟩ := by
  have h := (classify_spec 1100 1500 (by decide)
    (by
      show ¬ ((1500 : ℕ) : ℚ) < ((500 : ℕ) : ℚ) * (8 / 10)
      norm_num)).1
    (by
      show |((1100 : ℕ) : ℚ) / ((1500 : ℕ) : ℚ) -
        ((9 : ℕ) : ℚ) / ((16 : ℕ) : ℚ)| ≤ ratio_tolerance
      rw [abs_le]
      constructor <;> norm_num [ratio_tolerance])
  rw [h]
  decide

/-- Helper: concrete evaluation of the classifier at (1080,1920). -/
theorem classify_1080_1920_eval :
    is_social_media_compatible 1080 1920 =
      ⟨true, some (String.toList "9:16"), 100, some (String.toList "perfect")⟩ := by
  have h := (classify_spec 1080 1920 (by decide)
    (by
      show ¬ ((1920 : ℕ) : ℚ) < ((500 : ℕ) : ℚ) * (8 / 10)
      norm_num)).1
    (by
      show |((1080 : ℕ) : ℚ) / ((1920 : ℕ) : ℚ) -
        ((9 : ℕ) : ℚ) / ((16 : ℕ) : ℚ)| ≤ ratio_tolerance
      rw [abs_le]
      constructor <;> norm_num [ratio_tolerance])
  rw [h]
  decide

/-- Helper: concrete evaluation of the classifier at (1080,1350). -/
theorem classify_1080_1350_eval :
    is_social_media_compatible 1080 1350 =
      ⟨true, some (String.toList "9:16"), 100, some (String.toList "perfect")⟩ := by
  have h := (classify_spec 1080 1350 (by decide)
    (by
      show ¬ ((1350 : ℕ) : ℚ) < ((500 : ℕ) : ℚ) * (8 / 10)
      norm_num)).1
    (by
      show |((1080 : ℕ) : ℚ) / ((1350 : ℕ) : ℚ) -
        ((9 : ℕ) : ℚ) / ((16 : ℕ) : ℚ)| ≤ ratio_tolerance
      rw [abs_le]
      constructor <;> norm_num [ratio_tolerance])
  rw [h]
  decide

/-- C1 counterexample: under the fixed configuration (tolerance 0.35,
preferred dimensions including (1080,1440)), `classify(1080,1440)` does NOT
return tier Croppable with matchedRatio "3:4": the 9:16 entry is checked
first, 0.75 is also within tolerance 0.35 of 9/16, and as a preferred
dimension the pair scores 100 there, which no croppable candidate (85) can
strictly beat. -/
theorem classify_1080_1440_not_croppable :
    ¬ ((is_social_media_compatible 1080 1440).quality_tier =
          some (String.toList "croppable") ∧
       (is_social_media_compatible 1080 1440).best_match =
          some (String.toList "3:4") ∧
       60 ≤ (is_social_media_compatible 1080 1440).best_score) := by
  rw [classify_1080_1440_eval]
  decide

/-- C1 amended: `classify(1080,1440)` returns accepted with tier = "perfect",
matchedRatio = "9:16" and score = 100 (hence ≥ 60). -/
theorem classify_1080_1440_perfect :
    is_social_media_compatible 1080 1440 =
      ⟨true, some (String.toList "9:16"), 100, some (String.toList "perfect")⟩ ∧
    60 ≤ (is_social_media_compatible 1080 1440).best_score := by
  refine ⟨classify_1080_1440_eval, ?_⟩
  rw [classify_1080_1440_eval]
  decide

/-- C2 counterexample: (1100,1500) and (1080,1440) are both accepted with the
same matched ratio "9:16"; the first has the strictly larger minimum side
(1100 > 1080), yet it scores strictly lower (98 < 100, because (1080,1440) is
a preferred dimension and scores the override 100). -/
theorem classify_larger_min_scores_lower :
    (is_social_media_compatible 1080 1440).is_compatible = true ∧
    (is_social_media_compatible 1100 1500).is_compatible = true ∧
    (is_social_media_compatible 1080 1440).best_match =
      (is_social_media_compatible 1100 1500).best_match ∧
    min 1080 1440 < min 1100 1500 ∧
    (is_social_media_compatible 1100 1500).best_score <
      (is_social_media_compatible 1080 1440).best_score := by
  rw [classify_1080_1440_eval, classify_1100_1500_eval]
  refine ⟨rfl, rfl, rfl, by decide, by decide⟩

/-- C2 amended: for two dimension pairs accepted with the same matched ratio,
the pair with the larger (or equal) `min(width,height)` never scores more than
5 points lower than the other; the 5-point slack is exactly the maximum
high-resolution bonus that a preferred-dimension competitor can have on top of
what a non-preferred pair with minimum side above 1080 is guaranteed. -/
theorem classify_min_monotone_within_5 (w1 h1 w2 h2 : ℕ)
    (hacc1 : (is_social_media_compatible w1 h1).is_compatible = true)
    (hacc2 : (is_social_media_compatible w2 h2).is_compatible = true)
    (hsame : (is_social_media_compatible w1 h1).best_match =
      (is_social_media_compatible w2 h2).best_match)
    (hmin : min w1 h1 ≤ min w2 h2) :
    (is_social_media_compatible w1 h1).best_score ≤
      (is_social_media_compatible w2 h2).best_score + 5 := by
  rw [classify_accepted_score w1 h1 hacc1, classify_accepted_score w2 h2 hacc2]
  rw [candidate_score_916, candidate_score_916]
  by_cases hp2 : (w2, h2) ∈ preferred_dimensions ∨
      (h2, w2) ∈ preferred_dimensions
  · rw [if_pos hp2]
    split_ifs <;> omega
  · rw [if_neg hp2]
    by_cases hp1 : (w1, h1) ∈ preferred_dimensions ∨
        (h1, w1) ∈ preferred_dimensions
    · rw [if_pos hp1]
      have hm1 := preferred_min_1080 w1 h1 hp1
      have h2min : 1080 ≤ min w2 h2 := by omega
      rw [if_pos h2min]
      split_ifs <;> omega
    · rw [if_neg hp1]
      split_ifs <;> omega

/-- Witness for C2 amended: (1080,1920) and (1080,1350) are both accepted with
matched ratio "9:16" and equal minimum side, and indeed
score(1080,1920) ≤ score(1080,1350) + 5. -/
theorem classify_min_monotone_within_5_witness :
    (is_social_media_compatible 1080 1920).best_score ≤
      (is_social_media_compatible 1080 1350).best_score + 5 :=
  classify_min_monotone_within_5 1080 1920 1080 1350
    (by rw [classify_1080_1920_eval])
    (by rw [classify_1080_1350_eval])
    (by rw [classify_1080_1920_eval, classify_1080_1350_eval])
    (by decide)

-- Hook categorizer lemmas -------------------------------------------------

/-- Helper: a fold that conditionally appends one element per input equals
append of the filtered-and-mapped input. -/
theorem foldl_collect {β γ : Type} (P : β → Prop) [DecidablePred P]
    (f : β → γ) (l : List β) :
    ∀ acc : List γ,
      l.foldl (fun acc b => if P b then acc ++ [f b] else acc) acc
        = acc ++ (l.filter fun b => decide (P b)).map f := by
  induction l with
  | nil => intro acc; simp
  | cons b bs ih =>
      intro acc
      rw [List.foldl_cons]
      by_cases hb : P b
      · rw [if_pos hb, ih]
        simp [List.filter_cons, hb]
      · rw [if_neg hb, ih]
        simp [List.filter_cons, hb]

/-- Helper: dividing every element of a list divides its sum. -/
theorem sum_map_div (l : List ℚ) (c : ℚ) :
    (l.map fun v => v / c).sum = l.sum / c := by
  induction l with
  | nil => simp
  | cons v vs ih => simp [ih, add_div]

/-- Helper: the sum of a constant-1 map is the length. -/
theorem sum_map_one {β : Type} (l : List β) :
    (l.map fun _ => (1 : ℚ)).sum = (l.length : ℚ) := by
  induction l with
  | nil => simp
  | cons b bs ih =>
      rw [List.map_cons, List.sum_cons, ih, List.length_cons]
      push_cast
      ring

/-- Helper: the per-category fold adds the weight once per matching pattern. -/
theorem score_foldl_aux (hl : PyStr) (w : ℚ) (ps : List (PyStr → Bool)) :
    ∀ s0 : ℚ, ps.foldl (fun s p => if p hl then s + w else s) s0
      = s0 + w * (ps.countP (fun p => p hl) : ℚ) := by
  induction ps with
  | nil => intro s0; simp
  | cons p ps ih =>
      intro s0
      rw [List.foldl_cons]
      by_cases hp : p hl = true
      · rw [if_pos hp, ih, List.countP_cons, if_pos hp]
        push_cast
        ring
      · rw [if_neg hp, ih, List.countP_cons, if_neg hp]
        push_cast
        ring

/-- Helper: a category's score is its weight times its number of pattern
hits. -/
theorem categoryScore_eq (hl : PyStr) (cwp : PyStr × ℚ × List (PyStr → Bool)) :
    categoryScore hl cwp = cwp.2.1 * (cwp.2.2.countP (fun p => p hl) : ℚ) := by
  unfold categoryScore
  rw [score_foldl_aux hl cwp.2.1 cwp.2.2 0]
  ring

/-- Helper: every declared category weight is at least 1. -/
theorem weights_ge_one (cwp : PyStr × ℚ × List (PyStr → Bool))
    (h : cwp ∈ hook_patterns) : (1 : ℚ) ≤ cwp.2.1 := by
  simp only [hook_patterns, List.mem_cons, List.not_mem_nil, or_false] at h
  rcases h with rfl | rfl | rfl | rfl | rfl | rfl | rfl | rfl <;> norm_num

/-- Helper: Python `max` keeps the first element when no later value strictly
exceeds it. -/
theorem foldl_max_const (xs : List (PyStr × ℚ)) (x : PyStr × ℚ)
    (h : ∀ y ∈ xs, y.2 ≤ x.2) :
    xs.foldl (fun b y => if b.2 < y.2 then y else b) x = x := by
  induction xs with
  | nil => rfl
  | cons y ys ih =>
      rw [List.foldl_cons, if_neg (not_lt.mpr (h y (by simp)))]
      exact ih fun z hz => h z (by simp [hz])

/-- Helper: `primary_category` on a nonempty list is the fold of Python `max`
from the head. -/
theorem primary_category_cons (x : PyStr × ℚ) (xs : List (PyStr × ℚ)) :
    primary_category (x :: xs) =
      (xs.foldl (fun b y => if b.2 < y.2 then y else b) x).1 := rfl

/-- Helper: characterisation of `categorize_hook` on a nonempty hook in terms
of the collected positive-score categories. -/
theorem categorize_eq (hook : PyStr) (hne : hook ≠ []) :
    categorize_hook hook =
      if categorize_scores hook = [] then [(toL "general", 1)]
      else (categorize_scores hook).map
        (fun kv => (kv.1, kv.2 / ((categorize_scores hook).map Prod.snd).sum)) := by
  unfold categorize_hook categorize_scores
  rw [if_neg hne]
  dsimp only
  rw [foldl_collect
    (fun cwp => 0 < categoryScore (pstrip (asciiLower hook)) cwp)
    (fun cwp => (cwp.1, min (categoryScore (pstrip (asciiLower hook)) cwp) 1))
    hook_patterns [], List.nil_append]

/-- C3: for every input hook string, `categorize` returns a non-empty mapping
whose weight values sum to 1 exactly in the rational model (hence within the
1e-9 floating-point tolerance), including the unknown/general fallbacks. -/
theorem categorize_weights_sum_one (hook : PyStr) :
    categorize_hook hook ≠ [] ∧
    |((categorize_hook hook).map Prod.snd).sum - 1| ≤ 1 / 1000000000 := by
  by_cases hne : hook = []
  · subst hne
    refine ⟨by simp [categorize_hook], ?_⟩
    simp [categorize_hook]
  · rw [categorize_eq hook hne]
    by_cases hL : categorize_scores hook = []
    · rw [if_pos hL]
      refine ⟨by simp, ?_⟩
      simp
    · rw [if_neg hL]
      have hpos : ∀ kv ∈ categorize_scores hook, 0 < kv.2 := by
        intro kv hkv
        unfold categorize_scores at hkv
        obtain ⟨cwp, hcwp, rfl⟩ := List.mem_map.mp hkv
        have h0 : 0 < categoryScore (pstrip (asciiLower hook)) cwp := by
          have := (List.mem_filter.mp hcwp).2
          simpa using this
        exact lt_min h0 one_pos
      have hmapne : (categorize_scores hook).map Prod.snd ≠ [] := by
        simpa using hL
      have htot : 0 < ((categorize_scores hook).map Prod.snd).sum := by
        apply List.sum_pos
        · intro v hv
          obtain ⟨kv, hkv, rfl⟩ := List.mem_map.mp hv
          exact hpos kv hkv
        · exact hmapne
      refine ⟨by simpa using hL, ?_⟩
      rw [List.map_map]
      have hcomp : (Prod.snd ∘ fun kv : PyStr × ℚ =>
          (kv.1, kv.2 / ((categorize_scores hook).map Prod.snd).sum)) =
          (fun v => v / ((categorize_scores hook).map Prod.snd).sum) ∘ Prod.snd :=
        rfl
      rw [hcomp, ← List.map_map, sum_map_div, div_self (ne_of_gt htot)]
      norm_num

/-- C10: on every hook for which at least one category matches, all matched
categories receive exactly the equal weight 1/n (n the number of matched
categories): every declared weight is at least 1 and per-category totals are
capped at 1.0 before normalisation, so no category can outscore another; the
primary category is therefore always the earliest matched category in the
fixed declaration order question, statement, story, list, challenge,
emotional, educational, controversial. -/
theorem categorize_equal_weights_primary (hook : PyStr) (hne : hook ≠ [])
    (hm : 0 < (matched_categories hook).length) :
    categorize_hook hook = (matched_categories hook).map
        (fun name => (name, 1 / ((matched_categories hook).length : ℚ))) ∧
    primary_category (categorize_hook hook) = (matched_categories hook).headI := by
  have hfeq : (hook_patterns.filter fun cwp =>
        decide (0 < categoryScore (pstrip (asciiLower hook)) cwp))
      = hook_patterns.filter
          (fun cwp => cwp.2.2.any fun p => p (pstrip (asciiLower hook))) := by
    apply List.filter_congr
    intro cwp hcwp
    have hw : (1 : ℚ) ≤ cwp.2.1 := weights_ge_one cwp hcwp
    rw [categoryScore_eq]
    cases hany : (cwp.2.2.any fun p => p (pstrip (asciiLower hook))) with
    | false =>
        have hc : cwp.2.2.countP (fun p => p (pstrip (asciiLower hook))) = 0 := by
          rw [List.countP_eq_zero]
          intro p hp
          have := List.any_eq_false.mp hany p hp
          simpa using this
        rw [hc]
        simp
    | true =>
        have hcp : 0 < cwp.2.2.countP (fun p => p (pstrip (asciiLower hook))) := by
          rw [List.countP_pos]
          exact List.any_eq_true.mp hany
        have hgt : (0 : ℚ) < cwp.2.1 *
            (cwp.2.2.countP (fun p => p (pstrip (asciiLower hook))) : ℚ) := by
          apply mul_pos (lt_of_lt_of_le one_pos hw)
          exact_mod_cast hcp
        simp [hgt]
  have hval : ∀ cwp ∈ hook_patterns.filter
      (fun cwp => cwp.2.2.any fun p => p (pstrip (asciiLower hook))),
      min (categoryScore (pstrip (asciiLower hook)) cwp) 1 = 1 := by
    intro cwp hcwp
    have hmem := List.mem_of_mem_filter hcwp
    have hany := (List.mem_filter.mp hcwp).2
    have hw : (1 : ℚ) ≤ cwp.2.1 := weights_ge_one cwp hmem
    rw [categoryScore_eq]
    have hcp : 0 < cwp.2.2.countP (fun p => p (pstrip (asciiLower hook))) := by
      rw [List.countP_pos]
      exact List.any_eq_true.mp hany
    have h1k : (1 : ℚ) ≤
        (cwp.2.2.countP (fun p => p (pstrip (asciiLower hook))) : ℚ) := by
      exact_mod_cast hcp
    have hone : (1 : ℚ) ≤ cwp.2.1 *
        (cwp.2.2.countP (fun p => p (pstrip (asciiLower hook))) : ℚ) := by
      nlinarith
    exact min_eq_right hone
  have hLeq : categorize_scores hook =
      (hook_patterns.filter
        (fun cwp => cwp.2.2.any fun p => p (pstrip (asciiLower hook)))).map
        (fun cwp => ((cwp.1 : PyStr), (1 : ℚ))) := by
    unfold categorize_scores
    rw [hfeq]
    apply List.map_congr_left
    intro cwp hcwp
    rw [hval cwp hcwp]
  have hmc : matched_categories hook =
      (hook_patterns.filter
        (fun cwp => cwp.2.2.any fun p => p (pstrip (asciiLower hook)))).map
        (fun cwp => cwp.1) := rfl
  have hMne : hook_patterns.filter
      (fun cwp => cwp.2.2.any fun p => p (pstrip (asciiLower hook))) ≠ [] := by
    intro h0
    rw [hmc, h0] at hm
    simp at hm
  have hsum : ((categorize_scores hook).map Prod.snd).sum =
      ((hook_patterns.filter
        (fun cwp => cwp.2.2.any fun p => p (pstrip (asciiLower hook)))).length : ℚ) := by
    rw [hLeq, List.map_map]
    have hcomp : (Prod.snd ∘ fun cwp : PyStr × ℚ × List (PyStr → Bool) =>
        ((cwp.1 : PyStr), (1 : ℚ))) = fun _ => (1 : ℚ) := rfl
    rw [hcomp, sum_map_one]
  have hLne : categorize_scores hook ≠ [] := by
    rw [hLeq]
    simpa using hMne
  have hcat : categorize_hook hook =
      (hook_patterns.filter
        (fun cwp => cwp.2.2.any fun p => p (pstrip (asciiLower hook)))).map
        (fun cwp => ((cwp.1 : PyStr),
          (1 : ℚ) / ((hook_patterns.filter
            (fun cwp => cwp.2.2.any fun p => p (pstrip (asciiLower hook)))).length : ℚ))) := by
    rw [categorize_eq hook hne, if_neg hLne]
    simp only [hsum]
    rw [hLeq, List.map_map]
    rfl
  constructor
  · rw [hcat, hmc, List.map_map, List.length_map]
    rfl
  · rw [hcat]
    obtain ⟨c, cs, hMc⟩ : ∃ c cs, hook_patterns.filter
        (fun cwp => cwp.2.2.any fun p => p (pstrip (asciiLower hook))) = c :: cs := by
      cases hcase : hook_patterns.filter
          (fun cwp => cwp.2.2.any fun p => p (pstrip (asciiLower hook))) with
      | nil => exact absurd hcase hMne
      | cons c cs => exact ⟨c, cs, rfl⟩
    rw [hMc, List.map_cons, primary_category_cons, foldl_max_const]
    · rw [hmc, hMc]
      rfl
    · intro y hy
      obtain ⟨cwp, hcwp, rfl⟩ := List.mem_map.mp hy
      exact le_refl _

/-- Witness for C10 at the hook "story time": both the statement category
(leading letter) and the story category match, each gets weight 1/2, and the
primary category is the earlier declared one. -/
theorem categorize_equal_weights_primary_witness :
    primary_category (categorize_hook (toL "story time")) =
      (matched_categories (toL "story time")).headI :=
  (categorize_equal_weights_primary (toL "story time") (by decide) (by decide)).2

-- Slideshow detection -----------------------------------------------------

/-- C7: every post record whose case-insensitive JSON-serialised form contains
one of the indicator substrings (photo, slideshow, carousel, swipe, album,
ImagePost, multi, gallery) is detected as a slideshow, and `isMultiImage`
returns a boolean without raising for any input, including non-dict records
and records missing all probed fields (every `JValue` is handled; the
raising branches of the Python code resolve to False through the
try/except). -/
theorem slideshow_indicator_detect (post_data : JValue) :
    ((slideshow_indicators.any fun ind =>
        decide (asciiLower ind <:+: asciiLower (dumps post_data))) = true →
      is_slideshow_post post_data = true) ∧
    (is_slideshow_post post_data = true ∨ is_slideshow_post post_data = false) := by
  constructor
  · intro h
    unfold is_slideshow_post
    dsimp only
    rw [if_pos h]
  · rcases Bool.eq_false_or_eq_true (is_slideshow_post post_data) with h | h
    · exact Or.inl h
    · exact Or.inr h

/-- Witness for C7: a record whose `type` field is the string `photo` is
detected through the serialised form (and is not a dict-free edge case). -/
theorem slideshow_indicator_detect_witness :
    is_slideshow_post (JValue.obj [(toL "type", JValue.str (toL "photo"))]) = true :=
  (slideshow_indicator_detect
    (JValue.obj [(toL "type", JValue.str (toL "photo"))])).1 (by decide)

-- URL normalisation -------------------------------------------------------

/-- C6: every URL matching a tiny-profile-picture size-class marker (the
60x60 or 75x75 pixel bucket, or the configured 140x too-small marker) is
rejected by the pipeline: `extract_image_data` returns none for it rather
than a canonical URL. -/
theorem tiny_profile_rejected (src : PyStr)
    (h : (toL "/60x60/") <:+: src ∨ (toL "/75x75/") <:+: src ∨
      (toL "/140x/") <:+: src) :
    extract_image_data_url src = none := by
  unfold extract_image_data_url
  by_cases h1 : src = [] ∨ ¬ (toL "pinimg.com") <:+: src
  · rw [if_pos h1]
  · rw [if_neg h1, if_pos h]

/-- Witness for C6 at a concrete 60x60 profile-picture URL. -/
theorem tiny_profile_rejected_witness :
    extract_image_data_url (toL "https://i.pinimg.com/60x60/8a/06/c7/x.jpg") = none :=
  tiny_profile_rejected (toL "https://i.pinimg.com/60x60/8a/06/c7/x.jpg")
    (by decide)

/-- Helper: an infix of an append is an infix of one part or spans the
boundary with a nonempty suffix of the left part and a nonempty prefix of the
right part. -/
theorem infix_append_cases {m p g : List Char} (h : m <:+: p ++ g) :
    m <:+: p ∨ m <:+: g ∨
    ∃ m1 m2, m = m1 ++ m2 ∧ m1 ≠ [] ∧ m2 ≠ [] ∧ m1 <:+ p ∧ m2 <+: g := by
  obtain ⟨a, b, hab⟩ := h
  rcases List.append_eq_append_iff.mp hab with ⟨c, hc1, hc2⟩ | ⟨c, hc1, hc2⟩
  · left
    exact ⟨a, c, hc1.symm⟩
  · rcases List.append_eq_append_iff.mp hc1 with ⟨e, he1, he2⟩ | ⟨e, he1, he2⟩
    · by_cases hee : e = []
      · subst hee
        right; left
        have hmc : m = c := by simpa using he2
        exact ⟨[], b, by rw [List.nil_append, hmc, hc2]⟩
      · by_cases hce : c = []
        · subst hce
          left
          have hme : m = e := by simpa using he2
          exact (show m <:+ p from ⟨a, by rw [hme, he1]⟩).isInfix
        · right; right
          exact ⟨e, c, he2, hee, hce, ⟨a, he1.symm⟩, ⟨b, hc2.symm⟩⟩
    · right; left
      refine ⟨e, b, ?_⟩
      rw [hc2, he2]

/-- Helper: combine the three cases into a non-membership transfer. -/
theorem not_infix_append (m p g : List Char)
    (h1 : ¬ m <:+: p) (h2 : ¬ m <:+: g)
    (h3 : ∀ m1 m2, m = m1 ++ m2 → m1 ≠ [] → m2 ≠ [] → m1 <:+ p → m2 <+: g →
      False) :
    ¬ m <:+: p ++ g := by
  intro h
  rcases infix_append_cases h with hc | hc | ⟨m1, m2, he, hn1, hn2, hs, hp⟩
  · exact h1 hc
  · exact h2 hc
  · exact h3 m1 m2 he hn1 hn2 hs hp

/-- Helper: the anchored host prefix splits the URL. -/
theorem stripPinPfx_eq (url s1 : PyStr) (h : stripPinPfx url = some s1) :
    url = pinPfx ++ s1 := by
  unfold stripPinPfx at h
  split_ifs at h with hp
  obtain ⟨t, ht⟩ := hp
  cases h
  rw [← ht, List.drop_left]

/-- Helper: the size-segment parser returns a suffix of its input. -/
theorem parseSizeSeg_suffix (s r : PyStr) (h : parseSizeSeg s = some r) :
    r <:+ s := by
  have hds : s.dropWhile Char.isDigit <:+ s := List.dropWhile_suffix _
  unfold parseSizeSeg at h
  split at h
  · cases h
  · cases h
    rename_i heq1 heq2
    rw [heq2] at hds
    exact ((List.suffix_cons '/' r).trans (List.suffix_cons 'x' ('/' :: r))).trans hds
  · rename_i r2 heq1 heq2 hne
    have hr2 : r2 <:+ s := by
      rw [hne] at hds
      exact (List.suffix_cons 'x' r2).trans hds
    have hds2 : r2.dropWhile Char.isDigit <:+ r2 := List.dropWhile_suffix _
    split at h
    · cases h
    · cases h
      rename_i heq3 heq4
      rw [heq4] at hds2
      exact (((List.suffix_cons '/' r).trans hds2).trans hr2)
    · cases h
  · cases h

/-- Helper: a successful group parse returns a prefix of its input that starts
with a lowercase hex digit. -/
theorem parseGroup_some (s g : PyStr) (h : parseGroup s = some g) :
    g <+: s ∧ ∃ a rest, g = a :: rest ∧ hexLow a = true := by
  unfold parseGroup at h
  split at h
  · rename_i a b c d e f rest
    split_ifs at h with hhex hfn
    cases h
    constructor
    · exact (List.prefix_append_right_inj
        [a, b, '/', c, d, '/', e, f, '/']).mpr (List.takeWhile_prefix _)
    · exact ⟨a, _, rfl, hhex.1⟩
  · cases h

/-- Helper: a marker without slashes cannot have a nonempty suffix of the
originals prefix (which ends in a slash) as a prefix of itself. -/
theorem no_slash_span (m m1 m2 : PyStr) (hm : ('/' : Char) ∉ m)
    (he : m = m1 ++ m2) (hn1 : m1 ≠ []) (hs : m1 <:+ origPfx) : False := by
  obtain ⟨t, ht⟩ := hs
  have h0 : (t ++ m1).getLast? = some '/' := by rw [ht]; rfl
  rw [List.getLast?_append_of_ne_nil t hn1] at h0
  have hmem : ('/' : Char) ∈ m1 := by
    have hopt : ('/' : Char) ∈ m1.getLast? := Option.mem_def.mpr h0
    obtain ⟨hne, hgl⟩ := List.mem_getLast?_eq_getLast hopt
    rw [hgl]
    exact List.getLast_mem hne
  exact hm (he ▸ List.mem_append_left m2 hmem)

/-- Helper: `/videos/` cannot span the boundary between the originals prefix
and a rewritten path starting with a hex digit: the only nonempty prefix of
the marker that is also a suffix of the prefix is `/`, and then `videos/`
would have to begin the hex path. -/
theorem videos_span_impossible (g : PyStr)
    (hg : ∃ a rest, g = a :: rest ∧ hexLow a = true) :
    ∀ m1 m2, videosMarker = m1 ++ m2 → m1 ≠ [] → m2 ≠ [] → m1 <:+ origPfx →
      m2 <+: g → False := by
  rintro m1 m2 he hn1 hn2 hs hp
  have hm1 : m1 = videosMarker.take m1.length := by rw [he, List.take_left]
  have hm2 : m2 = videosMarker.drop m1.length := by rw [he, List.drop_left]
  have hlen : videosMarker.length = m1.length + m2.length := by
    rw [he, List.length_append]
  have h8 : videosMarker.length = 8 := rfl
  have hp1 : 1 ≤ m1.length := List.length_pos.mpr hn1
  have hp2 : 1 ≤ m2.length := List.length_pos.mpr hn2
  have hk7 : m1.length ≤ 7 := by omega
  generalize hgen : m1.length = k at hm1 hm2 hp1 hk7
  interval_cases k
  · obtain ⟨a, rest, hge, hhex⟩ := hg
    rw [hm2, hge] at hp
    have hp' := List.cons_prefix_cons.mp hp
    rw [← hp'.1] at hhex
    exact absurd hhex (by decide)
  all_goals (rw [hm1] at hs; exact absurd hs (by decide))

/-- Helper: no video-placeholder marker occurs in a rewritten originals URL
when none occurred in the source URL. -/
theorem video_marker_not_in_rewrite (url path : PyStr)
    (hvp : ¬ videoPlaceholder url)
    (hpath : path <:+: url)
    (hhead : ∃ a rest, path = a :: rest ∧ hexLow a = true) :
    ¬ videoPlaceholder (origPfx ++ path) := by
  unfold videoPlaceholder at *
  push_neg at hvp
  obtain ⟨hv, h0, h1⟩ := hvp
  intro h
  rcases h with h | h | h
  · exact (not_infix_append videosMarker origPfx path
      (by decide) (fun hin => hv (hin.trans hpath))
      (videos_span_impossible path hhead)) h
  · exact (not_infix_append zeroMarker0 origPfx path
      (by decide) (fun hin => h0 (hin.trans hpath))
      (fun m1 m2 he hn1 hn2 hs _ =>
        no_slash_span zeroMarker0 m1 m2 (by decide) he hn1 hs)) h
  · exact (not_infix_append zeroMarker1 origPfx path
      (by decide) (fun hin => h1 (hin.trans hpath))
      (fun m1 m2 he hn1 hn2 hs _ =>
        no_slash_span zeroMarker1 m1 m2 (by decide) he hn1 hs)) h

/-- Helper: every rewritten URL contains the originals bucket marker. -/
theorem originals_infix_rewrite (path : PyStr) :
    (toL "originals") <:+: origPfx ++ path := by
  have h1 : (toL "originals") <:+: origPfx := by decide
  exact h1.trans (List.prefix_append origPfx path).isInfix

/-- C5: `normalize` is idempotent where defined — whenever
`convert_to_original_url url = some v`, running it again on `v` returns `v`
unchanged (so `normalize(normalize(url)) = normalize(url)`) — and every URL
already containing the `originals` bucket marker that does not match a
video-placeholder pattern is a fixed point. -/
theorem normalize_idempotent :
    (∀ url v, convert_to_original_url url = some v →
        convert_to_original_url v = some v) ∧
    (∀ url, (toL "originals") <:+: url → ¬ videoPlaceholder url →
        convert_to_original_url url = some url) := by
  have hfix : ∀ url, (toL "originals") <:+: url → ¬ videoPlaceholder url →
      convert_to_original_url url = some url := by
    intro url ho hv
    unfold convert_to_original_url
    rw [if_neg hv, if_pos ho]
  refine ⟨?_, hfix⟩
  intro url v h
  unfold convert_to_original_url at h
  split_ifs at h with hvp ho
  · cases h
    exact hfix url ho hvp
  · cases hs1 : stripPinPfx url with
    | none => rw [hs1] at h; exact absurd h (by simp)
    | some s1 =>
      rw [hs1] at h
      dsimp only at h
      cases hs2 : parseSizeSeg s1 with
      | none => rw [hs2] at h; exact absurd h (by simp)
      | some s2 =>
        rw [hs2] at h
        dsimp only at h
        cases hs3 : parseGroup s2 with
        | none => rw [hs3] at h; exact absurd h (by simp)
        | some path =>
          rw [hs3] at h
          dsimp only at h
          cases h
          obtain ⟨hpref, hhead⟩ := parseGroup_some s2 path hs3
          have hurl := stripPinPfx_eq url s1 hs1
          have hsuf := parseSizeSeg_suffix s1 s2 hs2
          have hinfix : path <:+: url := by
            rw [hurl]
            have hs1url : s1 <:+ pinPfx ++ s1 := ⟨pinPfx, rfl⟩
            exact (hpref.isInfix.trans hsuf.isInfix).trans hs1url.isInfix
          exact hfix (origPfx ++ path) (originals_infix_rewrite path)
            (video_marker_not_in_rewrite url path hvp hinfix hhead)

/-- Witness for C5: the 236x thumbnail of the repository's own test URL
rewrites to the originals URL, and normalising that result returns it
unchanged. -/
theorem normalize_idempotent_witness :
    convert_to_original_url
        (toL "https://i.pinimg.com/originals/8a/06/c7/x.jpg") =
      some (toL "https://i.pinimg.com/originals/8a/06/c7/x.jpg") :=
  normalize_idempotent.1 (toL "https://i.pinimg.com/236x/8a/06/c7/x.jpg")
    (toL "https://i.pinimg.com/originals/8a/06/c7/x.jpg") (by decide)
